import Mathlib

/-!
Verification of the document-analysis evaluation harness.

We give a shallow embedding, in Lean, of the core of the repository:

* `Value` models the JSON/YAML-like dynamic values (Python objects) that
  flow through the system: strings, numbers, booleans, lists, dicts, None.
* `TextEditDistance.calculate` embeds `metrics/text_accuracy.py`.
* `deriveText` embeds the content-unit processing step of
  `load_ground_truth` in `evaluation/run_evaluation.py`.
* `metricsLoop` / `calculate_all_metrics` embed `calculate_all_metrics`
  in `evaluation/run_evaluation.py`.
* `BaseTool.run` embeds `tools/base_tool.py`.
* `PipelineExecutor.init` and `PipelineExecutor.run` embed
  `pipelines/executor.py`.

Python exceptions are modelled with `Except`/`Option`: a function that can
raise an uncaught exception returns `Except ε α` (or `Option α`), and a
`try/except` block in the source appears as a `match` on that value.
Floats are modelled as exact rationals `ℚ` (no rounding concerns arise in
the claims under study).  Wall-clock time is abstracted by an explicit
`elapsed` parameter.
-/

namespace DocEval

/-- A JSON/YAML-like dynamic value, modelling the Python objects that the
evaluation harness passes around (parsed JSON ground truth, YAML configs,
tool outputs). Dicts are ordered association lists, mirroring Python's
insertion-ordered `dict`. -/
inductive Value where
  | null
  | bool (b : Bool)
  | num (q : ℚ)
  | str (s : String)
  | list (items : List Value)
  | dict (fields : List (String × Value))

/-- First binding of a key in an ordered field list (Python dict lookup;
well-formed dicts have unique keys, so first = only). -/
def lookupField : List (String × Value) → String → Option Value
  | [], _ => none
  | (k, v) :: rest, key => if k = key then some v else lookupField rest key

/-- `key in d` for a Python dict. -/
def hasKey (fields : List (String × Value)) (key : String) : Bool :=
  (lookupField fields key).isSome

/-- `d[key] = v` on a Python dict (modelled as an ordered association
list): replaces the value in place if the key exists (keeping its
position), otherwise appends the new entry at the end, mirroring Python's
insertion-order semantics. -/
def setEntry {σ : Type} : List (String × σ) → String → σ → List (String × σ)
  | [], key, v => [(key, v)]
  | (k, w) :: rest, key, v =>
      if k = key then (key, v) :: rest else (k, w) :: setEntry rest key v

/-- Python truthiness (`bool(x)`) on the modelled values: `None`/`False`/`0`,
the empty string, the empty list and the empty dict are falsy. -/
def truthy : Value → Bool
  | .null => false
  | .bool b => b
  | .num q => decide (q ≠ 0)
  | .str s => decide (s ≠ "")
  | .list items => !items.isEmpty
  | .dict fields => !fields.isEmpty

/-- Is this value a Python `str`? `Levenshtein.distance` and `str.join`
raise `TypeError` on anything else. -/
def isStr : Value → Bool
  | .str _ => true
  | _ => false

/-- Levenshtein edit distance between two strings over their characters,
with unit costs (the behaviour of `Levenshtein.distance` from the
`python-Levenshtein` package used by `metrics/text_accuracy.py`). -/
def levDistance (s t : String) : ℕ :=
  levenshtein Levenshtein.defaultCost s.toList t.toList

/-! ## `metrics/text_accuracy.py` — `TextEditDistance.calculate` -/

/-- Extraction of the prediction text (`text_accuracy.py` lines 24-28):
a plain string is used directly; a dict uses its `"text"` entry when
present (whatever value it holds); anything else yields the empty string. -/
def predTextValue : Value → Value
  | .str s => .str s
  | .dict fields =>
      match lookupField fields "text" with
      | some v => v
      | none => .str ""
  | _ => .str ""

/-- Extraction of the ground-truth text (`text_accuracy.py` lines 31-35):
a non-dict, or a dict without `"text"`, yields the empty string (with a
logged warning); otherwise the `"text"` entry is used as-is. -/
def gtTextValue : Value → Value
  | .dict fields =>
      match lookupField fields "text" with
      | some v => v
      | none => .str ""
  | _ => .str ""

/-- The raw/normalized scores (`text_accuracy.py` lines 38-51).  When both
extracted texts are falsy the code returns a pair of zeros without calling the
distance function.  Otherwise it calls `Levenshtein.distance`, which
succeeds exactly when both extracted values are strings; the surrounding
`try/except` converts any exception into the sentinel pair of `-1.0`s. -/
def rawNormScores (pred_text gt_text : Value) : ℚ × ℚ :=
  if !truthy gt_text && !truthy pred_text then (0, 0)
  else
    match pred_text, gt_text with
    | .str p, .str g =>
        let d : ℕ := levDistance p g
        ((d : ℚ), (d : ℚ) / ((max g.length 1 : ℕ) : ℚ))
    | _, _ => (-1, -1)

/-- `[u.get("text", "") for u in units if isinstance(u, dict)]`
(`text_accuracy.py` lines 65-66): keep only dict entries, defaulting a
missing `"text"` to the empty string. -/
def unitTextValues (units : List Value) : List Value :=
  units.filterMap fun u =>
    match u with
    | .dict fields => some ((lookupField fields "text").getD (.str ""))
    | _ => none

/-- A Python value usable as a `str.join` element. -/
def asString : Value → Option String
  | .str s => some s
  | _ => none

/-- All elements of the list as strings; `none` as soon as one element is
not a string (the `TypeError` raised by `str.join`). -/
def stringsOf : List Value → Option (List String)
  | [] => some []
  | v :: rest =>
      match asString v with
      | some s => (stringsOf rest).map (s :: ·)
      | none => none

/-- `"\n".join([u.get("text", "") for u in v if isinstance(u, dict)])`:
iterating a dict yields its (string) keys and iterating a string yields
characters, none of which pass the `isinstance(u, dict)` filter, so those
cases join an empty list; non-iterable values raise `TypeError` (`none`),
as does joining any non-string element. -/
def joinedUnitText : Value → Option String
  | .list units => (stringsOf (unitTextValues units)).map (String.intercalate "\n")
  | .dict _ => some ""
  | .str _ => some ""
  | _ => none

/-- `isinstance(v, dict) and "content_units" in v`
(the guard on `text_accuracy.py` lines 54-55, per side). -/
def hasContentUnits : Value → Bool
  | .dict fields => hasKey fields "content_units"
  | _ => false

/-- `v[key]` under a guard that already established presence. -/
def getItem : Value → String → Value
  | .dict fields, key => (lookupField fields key).getD .null
  | _, _ => .null

/-- The optional unit-level scores (`text_accuracy.py` lines 53-73).
Outer `none` models an uncaught exception escaping `calculate` (the unit
branch has no `try/except`); inner `none`s model the keys being absent
from the result dict. -/
def unitsScores (prediction ground_truth : Value) : Option (Option ℚ × Option ℚ) :=
  if hasContentUnits prediction && hasContentUnits ground_truth then
    match joinedUnitText (getItem prediction "content_units"),
          joinedUnitText (getItem ground_truth "content_units") with
    | some pc, some gc =>
        let d : ℕ := levDistance pc gc
        some (some (d : ℚ), some ((d : ℚ) / ((max gc.length 1 : ℕ) : ℚ)))
    | _, _ => none
  else some (none, none)

/-- The result dict built by `TextEditDistance.calculate`: the raw keys are
always present, the unit keys only when both sides expose content units. -/
structure CalcResult where
  raw_text_distance : ℚ
  normalized_distance : ℚ
  unit_text_distance : Option ℚ
  unit_normalized_distance : Option ℚ
  deriving DecidableEq

/-- `TextEditDistance.calculate` (`text_accuracy.py` lines 14-75).
`none` models an exception escaping `calculate` (possible only in the
content-unit branch, which is not protected by a `try/except`). -/
def TextEditDistance.calculate (prediction ground_truth : Value) : Option CalcResult :=
  let scores := rawNormScores (predTextValue prediction) (gtTextValue ground_truth)
  match unitsScores prediction ground_truth with
  | none => none
  | some (u1, u2) =>
      some { raw_text_distance := scores.1
             normalized_distance := scores.2
             unit_text_distance := u1
             unit_normalized_distance := u2 }

/-! ## `evaluation/run_evaluation.py` — `load_ground_truth` content-unit step -/

/-- `unit["text"]` as a `str.join` element (`run_evaluation.py` line 30):
subscripting a non-dict raises `TypeError`, a dict without the key raises
`KeyError`, and a non-string value makes the subsequent join raise —
all modelled as `none`. Note: unlike the metric, the loader has no
`isinstance(unit, dict)` filter and no `.get` default. -/
def unitTextStrict : Value → Option String
  | .dict fields =>
      match lookupField fields "text" with
      | some (.str s) => some s
      | _ => none
  | _ => none

/-- The unit texts of the loader's list comprehension, failing on the first
malformed unit. -/
def stringsOfUnits : List Value → Option (List String)
  | [] => some []
  | u :: rest =>
      match unitTextStrict u with
      | some s => (stringsOfUnits rest).map (s :: ·)
      | none => none

/-- `"\n".join([unit["text"] for unit in v])` for the loader: iterating a
dict yields string keys and iterating a string yields characters, whose
`["text"]` subscript raises unless the iteration is empty; non-iterables
raise `TypeError`. -/
def joinedContentUnits : Value → Option String
  | .list units =>
      (stringsOfUnits units).map (String.intercalate "\n")
  | .dict [] => some ""
  | .dict (_ :: _) => none
  | .str s => if s = "" then some "" else none
  | _ => none

/-- The content-unit processing step of `load_ground_truth`
(`run_evaluation.py` lines 29-31), applied to the parsed JSON record:
when `"content_units" in gt_data`, the newline-joined unit texts are
assigned to `gt_data["text"]`; any exception raised while deriving them is
caught by the surrounding `except` (line 34), which leaves the record as
parsed. Non-dict records either fail the membership test or raise on
subscripting, so they are also returned unchanged. -/
def deriveText : Value → Value
  | .dict fields =>
      if hasKey fields "content_units" then
        match joinedContentUnits ((lookupField fields "content_units").getD .null) with
        | some txt => .dict (setEntry fields "text" (.str txt))
        | none => .dict fields
      else .dict fields
  | v => v

/-! ## `evaluation/run_evaluation.py` — `calculate_all_metrics` -/

/-- A loaded metric instance: its `name` property and its `calculate`
method, which either returns a score or raises (`.error`). The score type
is abstract — `TextEditDistance` returns a dict, other metrics a float. -/
structure Metric (σ : Type) where
  name : String
  calculate : Value → Value → Except Unit σ

/-- An entry of the Python results dict: the metric result, or the `None`
sentinel recorded when `calculate` raised. -/
def recordedResult {σ : Type} (r : Except Unit σ) : Option σ :=
  match r with
  | .ok score => some score
  | .error _ => none

/-- The metric loop of `calculate_all_metrics` (`run_evaluation.py` lines
65-76): each metric's `calculate` is invoked in order inside a
`try/except`; the result — or the `None` sentinel on an exception — is
stored under the metric's name, and the loop continues. -/
def metricsLoop {σ : Type} (prediction ground_truth : Value) :
    List (Metric σ) → List (String × Option σ) → List (String × Option σ)
  | [], acc => acc
  | m :: rest, acc =>
      metricsLoop prediction ground_truth rest
        (setEntry acc m.name (recordedResult (m.calculate prediction ground_truth)))

/-- `calculate_all_metrics` (`run_evaluation.py` lines 61-77). -/
def calculate_all_metrics {σ : Type} (metrics : List (Metric σ))
    (prediction ground_truth : Value) : List (String × Option σ) :=
  metricsLoop prediction ground_truth metrics []

/-! ## `tools/base_tool.py` — `BaseTool.run` -/

/-- The cost/latency bookkeeping fields of a `BaseTool` instance. -/
structure ToolState where
  cost : ℚ
  latency : ℚ
  deriving DecidableEq

/-- `BaseTool.run` (`base_tool.py` lines 28-54), shallowly embedded.

`process` models the abstract `process(input_data, context)` method of the
subclass: it receives the input, the context and the instance's current
cost accumulator (which it may update — Python tools mutate `self._cost`)
and either returns an output with the updated accumulator or raises,
also with the accumulator as updated up to the failure point.

`elapsed` abstracts the wall-clock time `time.monotonic() - start_time`
consumed by the `process` call; the source computes it in both the success
path and the `except` path, so the same value is recorded in both.

The result pairs the instance's updated bookkeeping state with either the
returned `(output, cost, latency)` triple or the re-raised exception. -/
def BaseTool.run {D C D2 : Type} (process : D → C → ℚ → ℚ × Except Unit D2)
    (elapsed : ℚ) (st : ToolState) (input_data : D) (context : C) :
    ToolState × Except Unit (D2 × ℚ × ℚ) :=
  let st1 : ToolState := { st with cost := 0 }
  let r := process input_data context st1.cost
  match r.2 with
  | .ok output_data =>
      ({ cost := r.1, latency := elapsed }, .ok (output_data, r.1, elapsed))
  | .error e =>
      ({ cost := r.1, latency := elapsed }, .error e)

/-! ## `pipelines/executor.py` — `PipelineExecutor` -/

/-- The pipeline definition source seen by `PipelineExecutor.__init__`:
either the YAML file does not exist, or it exists and parses to a value
(`yaml.safe_load` returns `None` — `Value.null` — for an empty file). -/
inductive ConfigSource where
  | missing
  | present (config : Value)

/-- The exceptions `__init__` can raise: `FileNotFoundError` for a missing
file, `ValueError` for an invalid format, and `TypeError` from membership
tests or subscripting on unsuitable parsed values. -/
inductive InitError where
  | fileNotFound
  | valueError
  | typeError
  deriving DecidableEq

/-- Substring containment on character lists (Python `pat in s` for
strings); the empty pattern is contained in every string. -/
def subcontains (pat : List Char) : List Char → Bool
  | [] => pat.isEmpty
  | c :: rest => pat.isPrefixOf (c :: rest) || subcontains pat rest

/-- Python `key in v` (`executor.py` line 21): key membership for a dict,
element equality for a list (a string equals only the same string),
substring containment for a string; `TypeError` for anything else. -/
def memTest (v : Value) (key : String) : Except Unit Bool :=
  match v with
  | .dict fields => .ok (hasKey fields key)
  | .list items =>
      .ok (items.any fun x =>
        match x with
        | .str s => decide (s = key)
        | _ => false)
  | .str s => .ok (subcontains key.toList s.toList)
  | _ => .error ()

/-- Python `v[key]` with a string key (`executor.py` lines 24-25):
succeeds only on a dict that has the key (`KeyError`/`TypeError`
otherwise). -/
def subscript (v : Value) (key : String) : Except Unit Value :=
  match v with
  | .dict fields =>
      match lookupField fields key with
      | some w => .ok w
      | none => .error ()
  | _ => .error ()

/-- `PipelineExecutor.__init__` (`executor.py` lines 10-26): raises
`FileNotFoundError` when the config file is missing; raises `ValueError`
when the parsed config is falsy or lacks the `pipeline_name` or `stages`
key; otherwise stores `config['pipeline_name']` and `config['stages']`.
Membership tests and subscripting on a parsed value of an unsuitable
type raise `TypeError` instead. -/
def PipelineExecutor.init (src : ConfigSource) : Except InitError (Value × Value) :=
  match src with
  | .missing => .error .fileNotFound
  | .present config =>
      if !truthy config then .error .valueError
      else
        match memTest config "pipeline_name" with
        | .error _ => .error .typeError
        | .ok b1 =>
            if !b1 then .error .valueError
            else
              match memTest config "stages" with
              | .error _ => .error .typeError
              | .ok b2 =>
                  if !b2 then .error .valueError
                  else
                    match subscript config "pipeline_name", subscript config "stages" with
                    | .ok pn, .ok st => .ok (pn, st)
                    | _, _ => .error .typeError

/-- One stage record of the pipeline config, restricted to the fields
`run` reads (`executor.py` lines 66-69): optional `name`, optional
`tool_module` and `tool_class` locators, and the tool parameters (an
abstract type `P`, passed through to the tool constructor unexamined). -/
structure StageConfig (P : Type) where
  name : Option String
  tool_module : Option String
  tool_class : Option String
  params : P

/-- Why a stage's `try` block raised (`executor.py` lines 76-95): either
`_get_tool_instance` failed (`ImportError`/`AttributeError`/`TypeError`
re-raised on lines 43-45: unknown module or class, or a class that is not
a `BaseTool` subclass), or the resolved tool's `run` raised. -/
inductive StageError where
  | toolResolution
  | toolFailure
  deriving DecidableEq

/-- The tool-loading environment: `_get_tool_instance` resolves a
`(tool_module, tool_class, params)` triple to a tool instance, modelled
directly by the instance's `run` behaviour on the data `D` and context
`C` flowing through the pipeline (a returned `(output, cost, latency)`
triple, or a raised exception), or fails to resolve. -/
structure ToolEnv (D P C : Type) where
  resolve : String → String → P → Except Unit (D → C → Except Unit (D × ℚ × ℚ))

/-- The body of a stage's `try` block (`executor.py` lines 77-78):
resolve and instantiate the tool, then invoke `tool_instance.run`. -/
def stageExec {D P C : Type} (env : ToolEnv D P C) (tool_module tool_class : String)
    (params : P) (current_data : D) (context : C) : Except StageError (D × ℚ × ℚ) :=
  match env.resolve tool_module tool_class params with
  | .error _ => .error .toolResolution
  | .ok tool =>
      match tool current_data context with
      | .error _ => .error .toolFailure
      | .ok out => .ok out

/-- One entry of the executor's `stage_results` list
(`executor.py` lines 81-86). -/
structure StageResult (D : Type) where
  name : String
  output : D
  cost : ℚ
  latency : ℚ

/-- The loop state of `PipelineExecutor.run`: the accumulator variables of
lines 59-62 plus `broke`, which records whether the loop was left by the
`break` on line 95 (rather than by exhausting the stage list). -/
structure LoopState (D : Type) where
  current_data : D
  stage_results : List (StageResult D)
  total_cost : ℚ
  total_latency : ℚ
  broke : Bool

/-- The stage loop of `PipelineExecutor.run` (`executor.py` lines 65-95),
with `i` the 0-based `enumerate` index. A stage whose `tool_module` or
`tool_class` is missing or falsy (an empty string) is skipped with
`continue`; otherwise the stage's `try` block runs: on success the stage
result is appended and the accumulators updated, and on any exception —
resolution failure included — the loop breaks, leaving the accumulators
as they were. -/
def runLoop {D P C : Type} (env : ToolEnv D P C) (context : C) :
    List (StageConfig P) → Nat → LoopState D → LoopState D
  | [], _, st => st
  | sc :: rest, i, st =>
      let stage_name := sc.name.getD ("stage_" ++ toString (i + 1))
      let tm := sc.tool_module.getD ""
      let tc := sc.tool_class.getD ""
      if tm.isEmpty || tc.isEmpty then
        runLoop env context rest (i + 1) st
      else
        match stageExec env tm tc sc.params st.current_data context with
        | .ok (output_data, cost, latency) =>
            runLoop env context rest (i + 1)
              { current_data := output_data
                stage_results := st.stage_results ++ [⟨stage_name, output_data, cost, latency⟩]
                total_cost := st.total_cost + cost
                total_latency := st.total_latency + latency
                broke := false }
        | .error _ => { st with broke := true }

/-- The dictionary returned by `PipelineExecutor.run`
(`executor.py` lines 101-108). -/
structure RunResult (D : Type) where
  pipeline_name : String
  final_output : D
  stages : List (StageResult D)
  total_cost : ℚ
  total_latency : ℚ
  success : Bool

/-- `PipelineExecutor.run` (`executor.py` lines 47-108): runs the stage
loop from the initial input and empty accumulators and packages the final
state, with `success` true iff the number of collected stage results
equals the number of declared stages. The function is total: every
exception raised inside the stage loop is caught there. -/
def PipelineExecutor.run {D P C : Type} (env : ToolEnv D P C) (pipeline_name : String)
    (stages : List (StageConfig P)) (initial_input : D) (context : C) : RunResult D :=
  let st := runLoop env context stages 0
    { current_data := initial_input, stage_results := [],
      total_cost := 0, total_latency := 0, broke := false }
  { pipeline_name := pipeline_name
    final_output := st.current_data
    stages := st.stage_results
    total_cost := st.total_cost
    total_latency := st.total_latency
    success := decide (st.stage_results.length = stages.length) }

/-- Modelled from the spec, NOT from the source: the behaviour §4.2 and §7
of the specification ascribe to `run`, in which a `ToolResolutionError`
is *not* caught by the stage loop and instead propagates to the caller,
while a tool execution failure is caught and breaks the loop. Used only
to exhibit the divergence between the spec's description and the code. -/
def specRunLoop {D P C : Type} (env : ToolEnv D P C) (context : C) :
    List (StageConfig P) → Nat → LoopState D → Except StageError (LoopState D)
  | [], _, st => .ok st
  | sc :: rest, i, st =>
      let stage_name := sc.name.getD ("stage_" ++ toString (i + 1))
      let tm := sc.tool_module.getD ""
      let tc := sc.tool_class.getD ""
      if tm.isEmpty || tc.isEmpty then
        specRunLoop env context rest (i + 1) st
      else
        match stageExec env tm tc sc.params st.current_data context with
        | .ok (output_data, cost, latency) =>
            specRunLoop env context rest (i + 1)
              { current_data := output_data
                stage_results := st.stage_results ++ [⟨stage_name, output_data, cost, latency⟩]
                total_cost := st.total_cost + cost
                total_latency := st.total_latency + latency
                broke := false }
        | .error .toolResolution => .error .toolResolution
        | .error .toolFailure => .ok { st with broke := true }

/-- Modelled from the spec, NOT from the source: `run` as described by the
specification, propagating tool-resolution failures to the caller. -/
def specRun {D P C : Type} (env : ToolEnv D P C) (pipeline_name : String)
    (stages : List (StageConfig P)) (initial_input : D) (context : C) :
    Except StageError (RunResult D) :=
  match specRunLoop env context stages 0
    { current_data := initial_input, stage_results := [],
      total_cost := 0, total_latency := 0, broke := false } with
  | .error e => .error e
  | .ok st =>
      .ok { pipeline_name := pipeline_name
            final_output := st.current_data
            stages := st.stage_results
            total_cost := st.total_cost
            total_latency := st.total_latency
            success := decide (st.stage_results.length = stages.length) }

/-! ## Helper lemmas -/

/-- Splitting the stage loop at a list boundary: if the loop has not yet
broken, running `xs ++ ys` first runs `xs`; if that breaks, `ys` is never
reached, otherwise `ys` continues from the resulting state. -/
theorem runLoop_append {D P C : Type} (env : ToolEnv D P C) (ctx : C)
    (xs ys : List (StageConfig P)) :
    ∀ (i : Nat) (st : LoopState D), st.broke = false →
      runLoop env ctx (xs ++ ys) i st =
        (if (runLoop env ctx xs i st).broke then runLoop env ctx xs i st
         else runLoop env ctx ys (i + xs.length) (runLoop env ctx xs i st)) := by
  induction xs with
  | nil => intro i st h; simp [runLoop, h]
  | cons sc xs ih =>
      intro i st h
      have hlen : i + (xs.length + 1) = (i + 1) + xs.length := by omega
      by_cases hskip : ((sc.tool_module.getD "").isEmpty ||
          (sc.tool_class.getD "").isEmpty) = true
      · simp only [List.cons_append, runLoop, hskip, if_true, List.length_cons, hlen]
        exact ih (i + 1) st h
      · rcases hexec : stageExec env (sc.tool_module.getD "") (sc.tool_class.getD "")
            sc.params st.current_data ctx with e | ⟨out, cost, lat⟩
        · simp [List.cons_append, runLoop, hskip, hexec]
        · simp only [List.cons_append, runLoop, hskip, if_false, Bool.false_eq_true,
            hexec, List.length_cons, hlen]
          exact ih (i + 1) _ rfl

/-- The stage loop adds at most one stage result per declared stage. -/
theorem runLoop_length_le {D P C : Type} (env : ToolEnv D P C) (ctx : C) :
    ∀ (stages : List (StageConfig P)) (i : Nat) (st : LoopState D),
      (runLoop env ctx stages i st).stage_results.length ≤
        st.stage_results.length + stages.length := by
  intro stages
  induction stages with
  | nil => intro i st; simp [runLoop]
  | cons sc rest ih =>
      intro i st
      by_cases hskip : ((sc.tool_module.getD "").isEmpty ||
          (sc.tool_class.getD "").isEmpty) = true
      · simp only [runLoop, hskip, if_true]
        have := ih (i + 1) st
        simp only [List.length_cons]
        omega
      · rcases hexec : stageExec env (sc.tool_module.getD "") (sc.tool_class.getD "")
            sc.params st.current_data ctx with e | ⟨out, cost, lat⟩
        · simp [runLoop, hskip, hexec]
        · simp only [runLoop, hskip, if_false, Bool.false_eq_true, hexec]
          have := ih (i + 1)
            { current_data := out
              stage_results := st.stage_results ++
                [⟨sc.name.getD ("stage_" ++ toString (i + 1)), out, cost, lat⟩]
              total_cost := st.total_cost + cost
              total_latency := st.total_latency + lat
              broke := false }
          simp only [List.length_append, List.length_cons, List.length_nil] at this ⊢
          omega

/-- A skipped stage never contributes a stage result, so a stage list
containing a stage with a falsy tool locator yields strictly fewer stage
results than declared stages. -/
theorem runLoop_length_lt_of_skip {D P C : Type} (env : ToolEnv D P C) (ctx : C) :
    ∀ (stages : List (StageConfig P)) (i : Nat) (st : LoopState D)
      (sc : StageConfig P), sc ∈ stages →
      ((sc.tool_module.getD "").isEmpty || (sc.tool_class.getD "").isEmpty) = true →
      (runLoop env ctx stages i st).stage_results.length <
        st.stage_results.length + stages.length := by
  intro stages
  induction stages with
  | nil => intro i st sc hmem; exact absurd hmem (List.not_mem_nil sc)
  | cons hd rest ih =>
      intro i st sc hmem hfal
      by_cases hskip : ((hd.tool_module.getD "").isEmpty ||
          (hd.tool_class.getD "").isEmpty) = true
      · simp only [runLoop, hskip, if_true, List.length_cons]
        have := runLoop_length_le env ctx rest (i + 1) st
        omega
      · have hmem2 : sc ∈ rest := by
          rcases List.mem_cons.mp hmem with heq | h2
          · exact absurd hfal (by rw [heq]; simp [hskip])
          · exact h2
        rcases hexec : stageExec env (hd.tool_module.getD "") (hd.tool_class.getD "")
            hd.params st.current_data ctx with e | ⟨out, cost, lat⟩
        · simp only [runLoop, hskip, if_false, Bool.false_eq_true, hexec, List.length_cons]
          omega
        · simp only [runLoop, hskip, if_false, Bool.false_eq_true, hexec, List.length_cons]
          have := ih (i + 1)
            { current_data := out
              stage_results := st.stage_results ++
                [⟨hd.name.getD ("stage_" ++ toString (i + 1)), out, cost, lat⟩]
              total_cost := st.total_cost + cost
              total_latency := st.total_latency + lat
              broke := false } sc hmem2 hfal
          simp only [List.length_append, List.length_cons, List.length_nil] at this ⊢
          omega

/-! ## Theorems -/

/-- C6: for every prediction text and ground-truth text,
`TextEditDistance.calculate` returns `raw_text_distance` equal to the
Levenshtein edit distance between them (0.0 when both are empty) and
`normalized_distance` equal to `raw_text_distance` divided by
`max(len(ground_truth_text), 1)`; in particular
`calculate("abc", {"text": ""})` yields `raw_text_distance == 3.0` and
`normalized_distance == 3.0`. -/
theorem textEditDistance_raw_and_normalized :
    (∀ p g : String,
      TextEditDistance.calculate (.str p) (.dict [("text", .str g)]) =
        some ⟨(levDistance p g : ℚ),
              (levDistance p g : ℚ) / ((max g.length 1 : ℕ) : ℚ), none, none⟩) ∧
    TextEditDistance.calculate (.str "abc") (.dict [("text", .str "")]) =
      some ⟨3, 3, none, none⟩ := by
  have hmain : ∀ p g : String,
      TextEditDistance.calculate (.str p) (.dict [("text", .str g)]) =
        some ⟨(levDistance p g : ℚ),
              (levDistance p g : ℚ) / ((max g.length 1 : ℕ) : ℚ), none, none⟩ := by
    intro p g
    by_cases hp : p = "" <;> by_cases hg : g = "" <;>
      simp [TextEditDistance.calculate, rawNormScores, predTextValue, gtTextValue,
        lookupField, truthy, unitsScores, hasContentUnits, hasKey, hp, hg]
    subst hp hg
    have h0 : levDistance "" "" = 0 := by decide
    simp [h0]
  refine ⟨hmain, ?_⟩
  have h3 : levDistance "abc" "" = 3 := by decide
  rw [hmain "abc" ""]
  simp [h3]

/-- C7: `TextEditDistance.calculate` includes `unit_text_distance` and
`unit_normalized_distance` in its result mapping if and only if both the
prediction and the ground truth are structured records containing
`content_units`; when present, these are computed over each side's unit
texts joined by newline (skipping non-record entries); and if the
prediction lacks `content_units` while the ground truth has them,
`unit_text_distance` is absent from the result. -/
theorem unit_scores_iff_both_content_units :
    (∀ p g r, TextEditDistance.calculate p g = some r →
      r.unit_text_distance.isSome = (hasContentUnits p && hasContentUnits g) ∧
      r.unit_normalized_distance.isSome = (hasContentUnits p && hasContentUnits g)) ∧
    (∀ p g pc gc, (hasContentUnits p && hasContentUnits g) = true →
      joinedUnitText (getItem p "content_units") = some pc →
      joinedUnitText (getItem g "content_units") = some gc →
      TextEditDistance.calculate p g =
        some ⟨(rawNormScores (predTextValue p) (gtTextValue g)).1,
              (rawNormScores (predTextValue p) (gtTextValue g)).2,
              some (levDistance pc gc : ℚ),
              some ((levDistance pc gc : ℚ) / ((max gc.length 1 : ℕ) : ℚ))⟩) ∧
    (∀ p g r, hasContentUnits p = false →
      TextEditDistance.calculate p g = some r →
      r.unit_text_distance = none) := by
  refine ⟨?_, ?_, ?_⟩
  · intro p g r h
    by_cases hc : (hasContentUnits p && hasContentUnits g) = true
    · rcases hpc : joinedUnitText (getItem p "content_units") with _ | pc <;>
        rcases hgc : joinedUnitText (getItem g "content_units") with _ | gc <;>
        simp [TextEditDistance.calculate, unitsScores, hc, hpc, hgc] at h <;>
        simp [← h, hc]
    · rw [Bool.not_eq_true] at hc
      simp [TextEditDistance.calculate, unitsScores, hc] at h
      simp [← h, hc]
  · intro p g pc gc hc hpc hgc
    simp [TextEditDistance.calculate, unitsScores, hc, hpc, hgc]
  · intro p g r hp h
    have hc : (hasContentUnits p && hasContentUnits g) = false := by simp [hp]
    simp [TextEditDistance.calculate, unitsScores, hc] at h
    simp [← h]

/-- C10: if the internal edit-distance computation over the extracted
prediction and ground-truth texts raises an exception (the extracted pair
is not handled by the both-empty branch and is not a pair of strings),
`TextEditDistance.calculate` does not propagate it: the raw scores become
the undocumented failure sentinel, and the returned mapping — whenever the
separate content-unit branch itself raises nothing — carries
`raw_text_distance = -1.0` and `normalized_distance = -1.0`. -/
theorem distance_error_sentinel :
    ∀ p g : Value,
      (!truthy (gtTextValue g) && !truthy (predTextValue p)) = false →
      (isStr (predTextValue p) && isStr (gtTextValue g)) = false →
      rawNormScores (predTextValue p) (gtTextValue g) = (-1, -1) ∧
      TextEditDistance.calculate p g =
        (unitsScores p g).map (fun u => ⟨-1, -1, u.1, u.2⟩) := by
  intro p g h1 h2
  have hraw : rawNormScores (predTextValue p) (gtTextValue g) = (-1, -1) := by
    generalize predTextValue p = pt at h1 h2
    generalize gtTextValue g = gt at h1 h2
    cases pt <;> cases gt <;> simp_all [rawNormScores, isStr]
  refine ⟨hraw, ?_⟩
  rcases e : unitsScores p g with _ | ⟨u1, u2⟩ <;>
    simp [TextEditDistance.calculate, e, hraw]

/-- C1 (counterexample): for a concrete pipeline whose only stage names an
unresolvable tool, `PipelineExecutor.run` does NOT propagate the
resolution failure: it returns a normal result (empty stage list,
initial input as final output, `success = false`), whereas the behaviour
the claim describes — modelled by `specRun` — would propagate a
`ToolResolutionError` out of `run`. -/
theorem resolution_failure_not_propagated_cex :
    PipelineExecutor.run (D := Nat) (P := Unit) (C := Unit)
        ⟨fun _ _ _ => .error ()⟩ "demo"
        [⟨some "s1", some "tools.marker", some "MarkerWrapper", ()⟩] 7 () =
      { pipeline_name := "demo", final_output := 7, stages := [],
        total_cost := 0, total_latency := 0, success := false } ∧
    specRun (D := Nat) (P := Unit) (C := Unit)
        ⟨fun _ _ _ => .error ()⟩ "demo"
        [⟨some "s1", some "tools.marker", some "MarkerWrapper", ()⟩] 7 () =
      .error .toolResolution := by
  exact ⟨rfl, rfl⟩

/-- C1 (amended): a stage whose tool cannot be resolved is handled inside
the Executor's stage loop exactly like any other stage failure — `run`
returns normally to the caller with the stage results accumulated before
the failing stage, the last successful data as final output, and
`success = false`; the resolution failure does not propagate out of
`run`. -/
theorem resolution_failure_caught_in_stage_loop :
    ∀ (D P C : Type) (env : ToolEnv D P C) (ctx : C) (name : String)
      (pre post : List (StageConfig P)) (sc : StageConfig P) (x : D)
      (tm tcl : String) (stPre : LoopState D),
      runLoop env ctx pre 0
        { current_data := x, stage_results := [], total_cost := 0,
          total_latency := 0, broke := false } = stPre →
      stPre.broke = false →
      sc.tool_module = some tm → sc.tool_class = some tcl →
      tm.isEmpty = false → tcl.isEmpty = false →
      env.resolve tm tcl sc.params = .error () →
      PipelineExecutor.run env name (pre ++ sc :: post) x ctx =
        { pipeline_name := name, final_output := stPre.current_data,
          stages := stPre.stage_results, total_cost := stPre.total_cost,
          total_latency := stPre.total_latency, success := false } := by
  intro D P C env ctx name pre post sc x tm tcl stPre hpre hbroke htm htcl hne1 hne2 hres
  have hlen : stPre.stage_results.length ≤ pre.length := by
    have := runLoop_length_le env ctx pre 0
      { current_data := x, stage_results := [], total_cost := 0,
        total_latency := 0, broke := false }
    rw [hpre] at this
    simpa using this
  have hstep : runLoop env ctx (sc :: post) (0 + pre.length) stPre =
      { stPre with broke := true } := by
    simp [runLoop, htm, htcl, hne1, hne2, stageExec, hres]
  unfold PipelineExecutor.run
  rw [runLoop_append env ctx pre (sc :: post) 0 _ rfl, hpre, hbroke]
  simp only [Bool.false_eq_true, if_false, hstep]
  simp [List.length_append]
  omega

/-- C1 (witness): the amended theorem applied to a concrete two-stage
pipeline whose first stage succeeds and whose second stage fails to
resolve: `run` returns the first stage's result with `success = false`. -/
theorem resolution_failure_caught_in_stage_loop_witness :
    PipelineExecutor.run (D := Nat) (P := Unit) (C := Unit)
        ⟨fun tm _ _ => if tm = "good" then .ok (fun d _ => .ok (d + 1, 2, 3)) else .error ()⟩
        "demo"
        [⟨some "ok", some "good", some "T", ()⟩, ⟨some "bad", some "gone", some "T", ()⟩]
        7 () =
      { pipeline_name := "demo", final_output := 8,
        stages := [⟨"ok", 8, 2, 3⟩], total_cost := 2, total_latency := 3,
        success := false } := by
  have h := resolution_failure_caught_in_stage_loop Nat Unit Unit
    ⟨fun tm _ _ => if tm = "good" then .ok (fun d _ => .ok (d + 1, 2, 3)) else .error ()⟩
    () "demo" [⟨some "ok", some "good", some "T", ()⟩]
    [] ⟨some "bad", some "gone", some "T", ()⟩ 7 "gone" "T"
    { current_data := 8, stage_results := [⟨"ok", 8, 2, 3⟩], total_cost := 0 + 2,
      total_latency := 0 + 3, broke := false }
    (by simp [runLoop, stageExec]; decide) rfl rfl rfl rfl rfl rfl
  simpa using h

/-- C2 (counterexample): a present pipeline definition whose `stages`
entry is the empty list is accepted by `PipelineExecutor.__init__` —
construction succeeds even though the stage list is empty, contradicting
the claim that success requires a non-empty stage list. -/
theorem init_accepts_empty_stage_list_cex :
    PipelineExecutor.init
        (.present (.dict [("pipeline_name", .str "p"), ("stages", .list [])])) =
      .ok (.str "p", .list []) := by
  rfl

/-- C2 (amended): `PipelineExecutor` construction succeeds if and only if
the definition source is present and parses to a mapping containing the
`pipeline_name` and `stages` keys — the stage list is NOT required to be
non-empty; a missing source fails with `FileNotFoundError` and a present
but malformed source fails with `ValueError` (or `TypeError` for a parsed
value that supports membership tests but not string subscripts), the
configuration-error family the spec groups under `ConfigurationError`. -/
theorem init_ok_iff_mapping_with_required_keys :
    (∀ src : ConfigSource,
      (∃ out, PipelineExecutor.init src = .ok out) ↔
      (∃ fields, src = .present (.dict fields) ∧
        hasKey fields "pipeline_name" = true ∧ hasKey fields "stages" = true)) ∧
    PipelineExecutor.init .missing = .error .fileNotFound := by
  refine ⟨?_, rfl⟩
  intro src
  constructor
  · rintro ⟨out, h⟩
    cases src with
    | missing => simp [PipelineExecutor.init] at h
    | present config =>
        cases config with
        | dict fields =>
            refine ⟨fields, rfl, ?_, ?_⟩
            all_goals
              by_contra hk
              rw [Bool.not_eq_true] at hk
              simp [PipelineExecutor.init, memTest, truthy, hk] at h
        | null => simp [PipelineExecutor.init, truthy] at h
        | bool b =>
            cases b <;> simp [PipelineExecutor.init, truthy, memTest] at h
        | num q =>
            by_cases hq : q = 0 <;>
              simp [PipelineExecutor.init, truthy, memTest, hq] at h
        | str s =>
            by_cases hs : s = "" <;>
              simp [PipelineExecutor.init, truthy, memTest, subscript, hs] at h
            repeat' split at h
            all_goals simp_all
        | list items =>
            simp [PipelineExecutor.init, truthy, memTest, subscript] at h
            repeat' split at h
            all_goals simp_all
  · rintro ⟨fields, rfl, h1, h2⟩
    rcases Option.isSome_iff_exists.mp h1 with ⟨pn, hpn⟩
    rcases Option.isSome_iff_exists.mp h2 with ⟨stv, hstv⟩
    have hne : fields.isEmpty = false := by
      cases fields with
      | nil => simp [hasKey, lookupField] at h1
      | cons a l => simp [List.isEmpty]
    refine ⟨(pn, stv), ?_⟩
    simp [PipelineExecutor.init, truthy, memTest, subscript, hne, h1, h2, hpn, hstv,
      hasKey]

/-- C2 (witness): the amended characterisation applied to a concrete
present, well-keyed mapping: construction succeeds. -/
theorem init_ok_iff_mapping_with_required_keys_witness :
    ∃ out, PipelineExecutor.init
        (.present (.dict [("pipeline_name", .str "p"), ("stages", .list [.null])])) =
      .ok out := by
  exact (init_ok_iff_mapping_with_required_keys.1 _).mpr ⟨_, rfl, rfl, rfl⟩

/-- C3: for a pipeline with stages S1 (succeeds), S2 (raises), S3, `run`
stops at the first failing stage and returns `final_output = S1(x)`,
`success = false`, and exactly one stage result (S1's); the partial stage
results and the last successful data are preserved and no exception
escapes the Executor's stage loop (`run` returns normally). -/
theorem run_failure_truncation :
    ∀ (D P C : Type) (env : ToolEnv D P C) (ctx : C) (name : String)
      (s1 s2 s3 : StageConfig P) (x y : D) (c1 l1 : ℚ)
      (tm1 tc1 tm2 tc2 : String),
      s1.tool_module = some tm1 → s1.tool_class = some tc1 →
      tm1.isEmpty = false → tc1.isEmpty = false →
      s2.tool_module = some tm2 → s2.tool_class = some tc2 →
      tm2.isEmpty = false → tc2.isEmpty = false →
      stageExec env tm1 tc1 s1.params x ctx = .ok (y, c1, l1) →
      stageExec env tm2 tc2 s2.params y ctx = .error .toolFailure →
      PipelineExecutor.run env name [s1, s2, s3] x ctx =
        { pipeline_name := name, final_output := y,
          stages := [⟨s1.name.getD "stage_1", y, c1, l1⟩],
          total_cost := c1, total_latency := l1, success := false } := by
  intro D P C env ctx name s1 s2 s3 x y c1 l1 tm1 tc1 tm2 tc2
    htm1 htc1 hne1 hne2 htm2 htc2 hne3 hne4 hex1 hex2
  have hname : ("stage_" ++ toString (0 + 1) : String) = "stage_1" := rfl
  simp [PipelineExecutor.run, runLoop, htm1, htc1, hne1, hne2, htm2, htc2,
    hne3, hne4, hex1, hex2, hname]

/-- C3 (witness): the truncation theorem applied to a concrete
three-stage pipeline whose middle stage's tool raises. -/
theorem run_failure_truncation_witness :
    PipelineExecutor.run (D := Nat) (P := Unit) (C := Unit)
        ⟨fun _ tcl _ =>
          if tcl = "Ok" then .ok (fun d _ => .ok (d + 1, 2, 3))
          else .ok (fun _ _ => .error ())⟩
        "demo"
        [⟨none, some "m", some "Ok", ()⟩, ⟨some "second", some "m", some "Bad", ()⟩,
          ⟨none, some "m", some "Ok", ()⟩] 10 () =
      { pipeline_name := "demo", final_output := 11,
        stages := [⟨"stage_1", 11, 2, 3⟩], total_cost := 2, total_latency := 3,
        success := false } := by
  exact run_failure_truncation Nat Unit Unit
    ⟨fun _ tcl _ =>
      if tcl = "Ok" then .ok (fun d _ => .ok (d + 1, 2, 3))
      else .ok (fun _ _ => .error ())⟩
    () "demo" ⟨none, some "m", some "Ok", ()⟩ ⟨some "second", some "m", some "Bad", ()⟩
    ⟨none, some "m", some "Ok", ()⟩ 10 11 2 3 "m" "Ok" "m" "Bad"
    rfl rfl rfl rfl rfl rfl rfl rfl rfl rfl

/-- C4 (counterexample): a concrete pipeline whose first stage lacks a
tool locator (skipped as a non-failing no-op) and whose second stage
executes without failure yields `success = false`, not `success = true`
as the claim states. -/
theorem skipped_stage_success_false_cex :
    PipelineExecutor.run (D := Nat) (P := Unit) (C := Unit)
        ⟨fun _ _ _ => .ok (fun d _ => .ok (d + 1, 0, 0))⟩ "demo"
        [⟨some "s1", none, some "C", ()⟩, ⟨some "s2", some "m", some "C", ()⟩] 3 () =
      { pipeline_name := "demo", final_output := 4,
        stages := [⟨"s2", 4, 0, 0⟩], total_cost := 0, total_latency := 0,
        success := false } := by
  have e1 : ("" : String).isEmpty = true := rfl
  have e2 : ("m" : String).isEmpty = false := rfl
  have e3 : ("C" : String).isEmpty = false := rfl
  simp [PipelineExecutor.run, runLoop, stageExec, e1, e2, e3]

/-- C4 (amended): whenever at least one declared stage is missing a tool
locator (and is therefore skipped as a non-failing no-op),
`PipelineExecutor.run` returns `success = false` — even when every other
stage executes without failure — because `success` compares the number of
collected stage results against the number of declared stages and a
skipped stage contributes no stage result. -/
theorem skipped_stage_forces_success_false :
    ∀ (D P C : Type) (env : ToolEnv D P C) (ctx : C) (name : String)
      (stages : List (StageConfig P)) (sc : StageConfig P) (x : D),
      sc ∈ stages →
      ((sc.tool_module.getD "").isEmpty || (sc.tool_class.getD "").isEmpty) = true →
      (PipelineExecutor.run env name stages x ctx).success = false := by
  intro D P C env ctx name stages sc x hmem hfal
  have := runLoop_length_lt_of_skip env ctx stages 0
    { current_data := x, stage_results := [], total_cost := 0,
      total_latency := 0, broke := false } sc hmem hfal
  simp only [List.length_nil, Nat.zero_add] at this
  simp [PipelineExecutor.run, Nat.ne_of_lt this]

/-- C4 (witness): the amended theorem applied to the concrete
skipped-then-successful pipeline. -/
theorem skipped_stage_forces_success_false_witness :
    (PipelineExecutor.run (D := Nat) (P := Unit) (C := Unit)
        ⟨fun _ _ _ => .ok (fun d _ => .ok (d + 1, 0, 0))⟩ "demo"
        [⟨some "s1", none, some "C", ()⟩, ⟨some "s2", some "m", some "C", ()⟩]
        3 ()).success = false := by
  exact skipped_stage_forces_success_false Nat Unit Unit
    ⟨fun _ _ _ => .ok (fun d _ => .ok (d + 1, 0, 0))⟩ () "demo"
    [⟨some "s1", none, some "C", ()⟩, ⟨some "s2", some "m", some "C", ()⟩]
    ⟨some "s1", none, some "C", ()⟩ 3 (List.mem_cons_self _ _) rfl

/-- C5: `BaseTool.run` resets the cost accumulator to zero before
invoking `process` (the result is independent of the instance's prior
bookkeeping state), records the elapsed wall time as latency whether
`process` succeeds or raises, returns the `(output, cost, latency)`
triple on success, and re-raises the exception when `process` raises. -/
theorem baseTool_run_contract :
    ∀ (D C D2 : Type) (process : D → C → ℚ → ℚ × Except Unit D2)
      (elapsed : ℚ) (st st2 : ToolState) (input : D) (ctx : C),
      BaseTool.run process elapsed st input ctx =
        BaseTool.run process elapsed st2 input ctx ∧
      (BaseTool.run process elapsed st input ctx).1.latency = elapsed ∧
      (∀ out c, process input ctx 0 = (c, .ok out) →
        BaseTool.run process elapsed st input ctx =
          (⟨c, elapsed⟩, .ok (out, c, elapsed))) ∧
      (∀ c e, process input ctx 0 = (c, .error e) →
        BaseTool.run process elapsed st input ctx = (⟨c, elapsed⟩, .error e)) := by
  intro D C D2 process elapsed st st2 input ctx
  refine ⟨rfl, ?_, ?_, ?_⟩
  · rcases hp : process input ctx 0 with ⟨c, r⟩
    cases r <;> simp [BaseTool.run, hp]
  · intro out c hp
    simp [BaseTool.run, hp]
  · intro c e hp
    simp [BaseTool.run, hp]

/-- C5 (witness): the contract applied to a concrete tool whose `process`
sets the accumulator to 2 and returns its input plus one, starting from a
dirty instance state: prior cost and latency are ignored. -/
theorem baseTool_run_contract_witness :
    @BaseTool.run Nat Unit Nat
        (fun d _ _ => (2, .ok (d + 1))) 7 ⟨9, 4⟩ 3 () =
      (⟨2, 7⟩, .ok (4, 2, 7)) := by
  exact (baseTool_run_contract Nat Unit Nat (fun d _ _ => (2, .ok (d + 1)))
    7 ⟨9, 4⟩ ⟨0, 0⟩ 3 ()).2.2.1 4 2 rfl

/-- C7 (witness): the unit-level computation applied to a concrete pair of
records whose content units join to `"a\nb"` and `"a\nc"`. -/
theorem unit_scores_iff_both_content_units_witness :
    TextEditDistance.calculate
        (.dict [("content_units", .list [.dict [("text", .str "a")], .dict [("text", .str "b")]])])
        (.dict [("content_units", .list [.dict [("text", .str "a")], .dict [("text", .str "c")]])]) =
      some ⟨0, 0, some 1, some (1 / 3)⟩ := by
  have h := unit_scores_iff_both_content_units.2.1
    (.dict [("content_units", .list [.dict [("text", .str "a")], .dict [("text", .str "b")]])])
    (.dict [("content_units", .list [.dict [("text", .str "a")], .dict [("text", .str "c")]])])
    "a\nb" "a\nc" rfl rfl rfl
  rw [h]
  have h2 : levDistance "a\nb" "a\nc" = 1 := by decide
  have h3 : ("a\nc" : String).length = 3 := rfl
  simp [rawNormScores, predTextValue, gtTextValue, truthy, lookupField, h2, h3]

/-- C10 (witness): the sentinel behaviour at a concrete input whose
prediction record carries a numeric `text` field: the distance call
raises, and `calculate` returns the sentinel mapping. -/
theorem distance_error_sentinel_witness :
    TextEditDistance.calculate (.dict [("text", .num 5)]) (.dict [("text", .str "a")]) =
      some ⟨-1, -1, none, none⟩ := by
  have h := (distance_error_sentinel (.dict [("text", .num 5)]) (.dict [("text", .str "a")])
    (by decide) (by decide)).2
  rw [h]
  rfl

/-- The metric loop processes a concatenation of metric lists by
processing the first list and continuing with the second from the
resulting accumulator. -/
theorem metricsLoop_append {σ : Type} (prediction ground_truth : Value)
    (xs ys : List (Metric σ)) :
    ∀ acc, metricsLoop prediction ground_truth (xs ++ ys) acc =
      metricsLoop prediction ground_truth ys
        (metricsLoop prediction ground_truth xs acc) := by
  induction xs with
  | nil => intro acc; rfl
  | cons m rest ih => intro acc; simp [metricsLoop, ih]

/-- C8: the Metric Runner invokes each metric's `calculate` in order,
catches any exception raised by one metric, records the `None` sentinel
under that metric's name, and continues with the remaining metrics: after
any prefix, the next metric's recorded entry is exactly
`recordedResult` of its `calculate` outcome and the loop proceeds with
the rest; in particular for metrics `[M1 (raises), M2 (returns 5.0)]` the
result is `{M1: sentinel, M2: 5.0}`. -/
theorem metric_runner_isolation :
    (∀ (σ : Type) (ms1 : List (Metric σ)) (m : Metric σ) (ms2 : List (Metric σ))
      (prediction ground_truth : Value),
      calculate_all_metrics (ms1 ++ m :: ms2) prediction ground_truth =
        metricsLoop prediction ground_truth ms2
          (setEntry (calculate_all_metrics ms1 prediction ground_truth) m.name
            (recordedResult (m.calculate prediction ground_truth)))) ∧
    calculate_all_metrics (σ := ℚ)
        [⟨"M1", fun _ _ => .error ()⟩, ⟨"M2", fun _ _ => .ok 5⟩] .null .null =
      [("M1", none), ("M2", some 5)] := by
  constructor
  · intro σ ms1 m ms2 prediction ground_truth
    simp [calculate_all_metrics, metricsLoop_append, metricsLoop]
  · rfl

/-- C9 (counterexample): for a ground-truth record that already has a
`text` field alongside `content_units`, the loader does NOT leave the
existing `text` unchanged: it overwrites it with the newline-joined unit
texts (`"orig"` becomes `"a\nb"`). -/
theorem deriveText_overwrites_text_cex :
    deriveText (.dict [("text", .str "orig"),
        ("content_units", .list [.dict [("text", .str "a")], .dict [("text", .str "b")]])]) =
      .dict [("text", .str "a\nb"),
        ("content_units", .list [.dict [("text", .str "a")], .dict [("text", .str "b")]])] ∧
    ("a\nb" : String) ≠ "orig" := by
  exact ⟨rfl, by decide⟩

/-- C9 (amended): for every ground-truth record containing well-formed
`content_units`, the loader sets the record's `text` field to the unit
texts joined with newline separators — unconditionally, overwriting any
`text` field that was already present (the code has no absence check). -/
theorem deriveText_joins_content_units :
    ∀ (fields : List (String × Value)) (units : List Value) (texts : List String),
      lookupField fields "content_units" = some (.list units) →
      stringsOfUnits units = some texts →
      deriveText (.dict fields) =
        .dict (setEntry fields "text" (.str (String.intercalate "\n" texts))) := by
  intro fields units texts hcu hst
  have hk : hasKey fields "content_units" = true := by simp [hasKey, hcu]
  simp [deriveText, hk, hcu, joinedContentUnits, hst]

/-- C9 (witness): the derivation applied to the concrete record
`{"content_units": [{"text": "a"}, {"text": "b"}]}`: the loaded record's
derived `text` equals `"a\nb"`. -/
theorem deriveText_joins_content_units_witness :
    deriveText (.dict [("content_units",
        .list [.dict [("text", .str "a")], .dict [("text", .str "b")]])]) =
      .dict [("content_units",
        .list [.dict [("text", .str "a")], .dict [("text", .str "b")]]),
        ("text", .str "a\nb")] := by
  exact deriveText_joins_content_units
    [("content_units", .list [.dict [("text", .str "a")], .dict [("text", .str "b")]])]
    [.dict [("text", .str "a")], .dict [("text", .str "b")]] ["a", "b"] rfl rfl

end DocEval
